import Mathlib

/-!
# dayLog: the journal view controller of `src/App.jsx`

A shallow embedding of the single React component `App`.

* The seven `useState` cells form the record `State`.
* Every handler of the component is a function on `World`, which pairs the
  React state with what is in flight (outstanding `getDocs`, `addDoc`,
  `signOut`, `signInWithPopup` promises) and with the ordered log of the calls
  made to the collaborators.
* An `async` handler is split at its `await`: the part before the `await`
  is one function, the continuation that runs when the promise settles is
  another one.  Other handlers may run in between, which is what the step
  function `step` and the runs `run` express.
* JavaScript strings are modelled by `String`; the operations on them are
  defined on the list of characters.
-/

namespace DayLog

/-! ## Data -/

/-- The user object delivered by the identity provider (`user.uid`,
`user.displayName`, `user.photoURL` are the fields the component reads). -/
structure Identity where
  uid : String
  displayName : String
  photoURL : Option String
deriving DecidableEq, Repr

/-- One element of `entries`: `{ id: doc.id, ...doc.data() }` (line 51).  The
query of lines 44-48 filters on `uid` and orders on `date`, so both are present
in every returned document; `text` may be absent, which is what the `?.` of
line 108 guards against: `none` stands for a missing (`undefined` or `null`)
`text`. -/
structure Entry where
  id : String
  uid : String
  date : String
  text : Option String
  createdAt : Nat
deriving DecidableEq, Repr

/-- The object literal handed to `addDoc` (lines 91-96); `createdAt` is the
`serverTimestamp()` sentinel, filled in by the store. -/
structure NewDoc where
  uid : String
  date : String
  text : String
deriving DecidableEq, Repr

/-- The calls the component makes to its collaborators and to the browser. -/
inductive Effect where
  | addDoc (r : NewDoc)
  | getDocs (uid : String)
  | signOut
  | signInWithPopup
  | alert (msg : String)
  | consoleError (tag : String)
deriving DecidableEq, Repr

/-- The `useState` cells of lines 20-26. -/
structure State where
  user : Option Identity
  date : String
  entry : String
  entries : List Entry
  searchTerm : String
  showEntryForm : Bool
  loading : Bool
deriving DecidableEq, Repr

/-- The component together with its environment: the React state, the
outstanding promises and the log of effects in the order they were made.
`fetches` holds, for each outstanding `getDocs`, the `uid` of its `where`
clause; `writes` holds, for each outstanding `addDoc`, the `user` captured by
the closure of `saveEntry` that awaits it. -/
structure World where
  ui : State
  fetches : List String
  writes : List Identity
  signOuts : Nat
  signIns : Nat
  log : List Effect
deriving DecidableEq, Repr

/-- The state at mount (the initial values of lines 20-26), nothing in flight. -/
def init : World :=
  { ui := { user := none, date := "", entry := "", entries := [], searchTerm := "",
            showEntryForm := false, loading := false },
    fetches := [], writes := [], signOuts := 0, signIns := 0, log := [] }

/-! ## Strings -/

/-- The code points `String.prototype.trim` strips: ECMAScript WhiteSpace
(TAB, VT, FF, SP, NBSP, ZWNBSP and the category Zs) and LineTerminator
(LF, CR, LS, PS). -/
def isTrimChar (c : Char) : Bool :=
  let n := c.toNat
  n == 0x09 || n == 0x0A || n == 0x0B || n == 0x0C || n == 0x0D || n == 0x20 ||
  n == 0xA0 || n == 0x1680 || (0x2000 ≤ n && n ≤ 0x200A) || n == 0x2028 ||
  n == 0x2029 || n == 0x202F || n == 0x205F || n == 0x3000 || n == 0xFEFF

/-- The method `String.prototype.trim`. -/
def trim (s : String) : String :=
  String.mk ((s.data.dropWhile isTrimChar).reverse.dropWhile isTrimChar).reverse

/-- The method `String.prototype.includes` with one argument: `t` occurs in `s`
as a contiguous run. -/
def includes (s t : String) : Bool :=
  s.data.tails.any (fun u => t.data.isPrefixOf u)

/-- A lowercasing for concrete runs: `String.prototype.toLowerCase` restricted
to the letters A-Z.  The component's definitions take the lowercasing as an
argument, since it belongs to the language and not to the repository. -/
def asciiLower (s : String) : String :=
  String.mk (s.data.map Char.toLower)

/-! ## The derived list (lines 106-109) -/

/-- The callback of `entries.filter` (line 108):
`e.text?.toLowerCase().includes(searchTerm.toLowerCase())`.  A missing `text`
short-circuits the chain to `undefined`, which `filter` reads as false. -/
def matchesSearch (toLowerCase : String → String) (searchTerm : String) (e : Entry) : Bool :=
  match e.text with
  | none => false
  | some t => includes (toLowerCase t) (toLowerCase searchTerm)

/-- The constant `visibleEntries` of lines 107-109. -/
def visibleEntries (toLowerCase : String → String) (entries : List Entry)
    (searchTerm : String) : List Entry :=
  entries.filter (matchesSearch toLowerCase searchTerm)

/-! ## Handlers -/

/-- The callback given to `onAuthStateChanged` (lines 30-35). -/
def onAuthStateChanged (u : Option Identity) (w : World) : World :=
  let ui1 := { w.ui with user := u }
  match u with
  | some _ => { w with ui := ui1 }
  | none => { w with ui := { ui1 with entries := [] } }

/-- The function `fetchEntries` up to its `await` (lines 40-49): nothing for a
falsy argument, otherwise `setLoading(true)` and the query is sent. -/
def fetchEntries (u : Option Identity) (w : World) : World :=
  match u with
  | none => w
  | some i =>
    { w with ui := { w.ui with loading := true },
             fetches := w.fetches ++ [i.uid],
             log := w.log ++ [Effect.getDocs i.uid] }

/-- The rest of `fetchEntries` (lines 49-57), run when the `k`-th outstanding
`getDocs` settles: `some arr` is a snapshot whose documents, mapped by line 51,
are `arr`; `none` is a rejection.  The `finally` clears `loading` either way.
Nothing here looks at `user`. -/
def getDocsSettled (k : Nat) (r : Option (List Entry)) (w : World) : World :=
  if k < w.fetches.length then
    match r with
    | some arr =>
      { w with ui := { w.ui with entries := arr, loading := false },
               fetches := w.fetches.eraseIdx k }
    | none =>
      { w with ui := { w.ui with loading := false },
               fetches := w.fetches.eraseIdx k,
               log := w.log ++ [Effect.consoleError "fetchEntries:"] }
  else w

/-- The effect of lines 60-62: `if (user) fetchEntries(user)`. -/
def userEffect (w : World) : World :=
  fetchEntries w.ui.user w

/-- The function `signInWithGoogle` up to its `await` (lines 65-67). -/
def signInWithGoogle (w : World) : World :=
  { w with signIns := w.signIns + 1, log := w.log ++ [Effect.signInWithPopup] }

/-- The rest of `signInWithGoogle` (lines 68-71). -/
def signInSettled (ok : Bool) (w : World) : World :=
  if 0 < w.signIns then
    if ok then { w with signIns := w.signIns - 1 }
    else { w with signIns := w.signIns - 1,
                  log := w.log ++ [Effect.consoleError "Sign in error:"] }
  else w

/-- The function `signOutUser` up to its `await` (lines 75-77). -/
def signOutUser (w : World) : World :=
  { w with signOuts := w.signOuts + 1, log := w.log ++ [Effect.signOut] }

/-- The rest of `signOutUser` (lines 78-81): `setUser(null)` on success. -/
def signOutSettled (ok : Bool) (w : World) : World :=
  if 0 < w.signOuts then
    if ok then { w with ui := { w.ui with user := none }, signOuts := w.signOuts - 1 }
    else { w with signOuts := w.signOuts - 1,
                  log := w.log ++ [Effect.consoleError "Sign out:"] }
  else w

/-- The text of the `alert` of line 87. -/
def saveAlert : String := "Please pick a date and write something."

/-- The function `saveEntry` up to its `await` (lines 85-96).  With a falsy
`user` the object literal throws on `user.uid` before `addDoc` is called, and
the `catch` of line 101 reports it. -/
def saveEntry (w : World) : World :=
  if w.ui.date = "" ∨ trim w.ui.entry = "" then
    { w with log := w.log ++ [Effect.alert saveAlert] }
  else
    match w.ui.user with
    | none => { w with log := w.log ++ [Effect.consoleError "saveEntry:"] }
    | some u =>
      { w with writes := w.writes ++ [u],
               log := w.log ++ [Effect.addDoc
                 { uid := u.uid, date := w.ui.date, text := trim w.ui.entry }] }

/-- The rest of `saveEntry` (lines 97-103), run when the `k`-th outstanding
`addDoc` settles.  On success: `setEntry("")`, `setDate("")`,
`setShowEntryForm(false)`, then `fetchEntries(user)` with the `user` of the
closure, not awaited.  On rejection: the `catch` reports it. -/
def addDocSettled (k : Nat) (ok : Bool) (w : World) : World :=
  match w.writes[k]? with
  | none => w
  | some u =>
    if ok then
      fetchEntries (some u)
        { w with ui := { w.ui with entry := "", date := "", showEntryForm := false },
                 writes := w.writes.eraseIdx k }
    else
      { w with writes := w.writes.eraseIdx k,
               log := w.log ++ [Effect.consoleError "saveEntry:"] }

/-- The `onChange` of the search box (line 155). -/
def searchInput (v : String) (w : World) : World :=
  { w with ui := { w.ui with searchTerm := v } }

/-- The `onClick` of the toolbar button (line 161). -/
def newEntryClick (w : World) : World :=
  { w with ui := { w.ui with showEntryForm := true } }

/-- The `onClick` of the floating button (line 191). -/
def floatingClick (w : World) : World :=
  { w with ui := { w.ui with showEntryForm := !w.ui.showEntryForm } }

/-- The `onClick` of the overlay (line 199). -/
def overlayClick (w : World) : World :=
  { w with ui := { w.ui with showEntryForm := false } }

/-- The `onChange` of the date input (line 210). -/
def dateInput (v : String) (w : World) : World :=
  { w with ui := { w.ui with date := v } }

/-- The `onChange` of the textarea (line 216). -/
def entryInput (v : String) (w : World) : World :=
  { w with ui := { w.ui with entry := v } }

/-- The `onClick` of the Cancel button (lines 224-228). -/
def cancelClick (w : World) : World :=
  { w with ui := { w.ui with showEntryForm := false, date := "", entry := "" } }

/-! ## Steps and runs -/

/-- What can happen to the mounted component: a notification from the identity
provider, a run of the effect on `user`, a promise settling, or the user
acting on an element. -/
inductive Event where
  | authChanged (u : Option Identity)
  | userEffect
  | getDocsSettled (k : Nat) (r : Option (List Entry))
  | signInClick
  | signInSettled (ok : Bool)
  | signOutClick
  | signOutSettled (ok : Bool)
  | searchInput (v : String)
  | newEntryClick
  | floatingClick
  | overlayClick
  | dateInput (v : String)
  | entryInput (v : String)
  | saveClick
  | cancelClick
  | addDocSettled (k : Nat) (ok : Bool)
deriving DecidableEq, Repr

/-- The signed-in view is rendered (`user` truthy, lines 114, 187). -/
def signedIn (w : World) : Bool := w.ui.user.isSome

/-- The modal is rendered (`showEntryForm && user`, line 198). -/
def modalShown (w : World) : Bool := w.ui.showEntryForm && w.ui.user.isSome

/-- The store's side of the query of lines 44-48: every document it returns
satisfies `where("uid", "==", u.uid)`. -/
def answersQuery (uid : String) (arr : List Entry) : Bool :=
  arr.all (fun e => e.uid == uid)

/-- One step.  `none` when the event cannot happen in `w`: the element is not
rendered, no such promise is outstanding, or the snapshot is not an answer to
the query that was sent.  The effect on `user` may run at any time, which
covers every schedule React can choose for it. -/
def step (w : World) : Event → Option World
  | .authChanged u => some (onAuthStateChanged u w)
  | .userEffect => some (userEffect w)
  | .getDocsSettled k r =>
    match w.fetches[k]? with
    | none => none
    | some uid =>
      match r with
      | none => some (getDocsSettled k none w)
      | some arr => if answersQuery uid arr then some (getDocsSettled k (some arr) w) else none
  | .signInClick => if signedIn w then none else some (signInWithGoogle w)
  | .signInSettled ok => if 0 < w.signIns then some (signInSettled ok w) else none
  | .signOutClick => if signedIn w then some (signOutUser w) else none
  | .signOutSettled ok => if 0 < w.signOuts then some (signOutSettled ok w) else none
  | .searchInput v => if signedIn w then some (searchInput v w) else none
  | .newEntryClick => if signedIn w then some (newEntryClick w) else none
  | .floatingClick => if signedIn w then some (floatingClick w) else none
  | .overlayClick => if modalShown w then some (overlayClick w) else none
  | .dateInput v => if modalShown w then some (dateInput v w) else none
  | .entryInput v => if modalShown w then some (entryInput v w) else none
  | .saveClick => if modalShown w then some (saveEntry w) else none
  | .cancelClick => if modalShown w then some (cancelClick w) else none
  | .addDocSettled k ok => if k < w.writes.length then some (addDocSettled k ok w) else none

/-- A run: the events one after the other, `none` as soon as one cannot happen. -/
def run : World → List Event → Option World
  | w, [] => some w
  | w, ev :: evs => (step w ev).bind (fun w1 => run w1 evs)

/-- A run in which, in addition, every step passes the check `g` (given the
world before the step and the event). -/
def runGuarded (g : World → Event → Bool) : World → List Event → Option World
  | w, [] => some w
  | w, ev :: evs =>
    if g w ev then (step w ev).bind (fun w1 => runGuarded g w1 evs) else none


/-! ## Concrete data used in the examples -/

/-- An identity `A`. -/
def idA : Identity := { uid := "A", displayName := "Ann", photoURL := none }

/-- An identity `B`, different from `A`. -/
def idB : Identity := { uid := "B", displayName := "Bob", photoURL := none }

/-- An entry owned by `A`. -/
def entryProject : Entry :=
  { id := "d1", uid := "A", date := "2024-01-02", text := some "Started project X", createdAt := 1 }

/-- A second entry owned by `A`. -/
def entryWalk : Entry :=
  { id := "d2", uid := "A", date := "2024-01-01", text := some "Went for a walk", createdAt := 2 }

/-- A document of `A` without a `text` field. -/
def entryNoText : Entry :=
  { id := "d3", uid := "A", date := "2023-12-31", text := none, createdAt := 3 }

/-- An entry owned by `B`. -/
def entryOfB : Entry :=
  { id := "d4", uid := "B", date := "2024-02-01", text := some "hello", createdAt := 4 }

/-! ## What the claims mean -/

/-- The entry has a text whose lowercasing contains the lowercased term as a
contiguous run of characters. -/
def TextContains (toLowerCase : String → String) (term : String) (e : Entry) : Prop :=
  ∃ t, e.text = some t ∧ (toLowerCase term).data <:+: (toLowerCase t).data

/-- No entry of another identity is in the cache: the cache is empty when
nobody is signed in, and holds only entries owned by the signed-in identity
otherwise. -/
def noLeak (w : World) : Bool :=
  match w.ui.user with
  | none => w.ui.entries.isEmpty
  | some u => w.ui.entries.all (fun e => e.uid == u.uid)

/-- The steps of a run without late arrivals: a snapshot arrives only while the
identity its query was sent for is still signed in, the provider announces an
identity only when nobody or that same identity is signed in, and the
continuation of `signOutUser` runs after the provider's no-identity
notification has been handled. -/
def orderly (w : World) : Event → Bool
  | .getDocsSettled k (some _) =>
    match w.ui.user with
    | none => false
    | some u => w.fetches[k]? == some u.uid
  | .authChanged (some u) =>
    match w.ui.user with
    | none => true
    | some v => v.uid == u.uid
  | .signOutSettled true => w.ui.user.isNone
  | _ => true

/-- The step can happen and leaves at most one `getDocs` outstanding: fetches
do not overlap. -/
def serial (w : World) (ev : Event) : Bool :=
  match step w ev with
  | none => false
  | some w1 => decide (w1.fetches.length ≤ 1)

/-- A world in which `A` is signed in, the Composer is open on the draft
("2024-03-01", "draft"), the cache holds two entries, and one `getDocs` and
one `addDoc` are outstanding. -/
def draftWorld : World :=
  { ui := { user := some idA, date := "2024-03-01", entry := "draft",
            entries := [entryProject, entryWalk], searchTerm := "",
            showEntryForm := true, loading := true },
    fetches := ["A"], writes := [idA], signOuts := 0, signIns := 0,
    log := [Effect.getDocs "A", Effect.getDocs "A",
            Effect.addDoc { uid := "A", date := "2024-03-01", text := "draft" }] }

/-- A world in which `A` is signed in and the Composer is open on a draft whose
text is white space only. -/
def blankDraftWorld : World :=
  { ui := { user := some idA, date := "2024-03-01", entry := " \n\t ",
            entries := [entryProject], searchTerm := "",
            showEntryForm := true, loading := false },
    fetches := [], writes := [], signOuts := 0, signIns := 0,
    log := [Effect.getDocs "A"] }

/-- A world in which `A` is signed in and the Composer is open on the draft
("2024-03-01", "  draft "), nothing in flight. -/
def readyWorld : World :=
  { ui := { user := some idA, date := "2024-03-01", entry := "  draft ",
            entries := [entryProject], searchTerm := "",
            showEntryForm := true, loading := false },
    fetches := [], writes := [], signOuts := 0, signIns := 0,
    log := [Effect.getDocs "A"] }

/-- A world in which `A` is signed in, the Composer is open on the draft
("2024-03-01", "draft") whose insert is outstanding, and no query is. -/
def savingWorld : World :=
  { ui := { user := some idA, date := "2024-03-01", entry := "draft",
            entries := [entryProject, entryWalk], searchTerm := "",
            showEntryForm := true, loading := false },
    fetches := [], writes := [idA], signOuts := 0, signIns := 0,
    log := [Effect.getDocs "A",
            Effect.addDoc { uid := "A", date := "2024-03-01", text := "draft" }] }

/-- A world in which `A` is signed in, the cache holds two entries, a query is
outstanding and no insert is. -/
def fetchingWorld : World :=
  { ui := { user := some idA, date := "", entry := "",
            entries := [entryProject, entryWalk], searchTerm := "",
            showEntryForm := false, loading := true },
    fetches := ["A"], writes := [], signOuts := 0, signIns := 0,
    log := [Effect.getDocs "A", Effect.getDocs "A"] }

/-- A run `A → none → B` without late arrivals: `A` signs in and its entries
arrive, `A` signs out, `B` signs in and its entries arrive. -/
def orderlyRun : List Event :=
  [.authChanged (some idA), .userEffect,
   .getDocsSettled 0 (some [entryProject, entryWalk]), .signOutClick, .authChanged none,
   .signOutSettled true, .authChanged (some idB), .userEffect,
   .getDocsSettled 0 (some [entryOfB])]

/-- The world at the end of `orderlyRun`. -/
def orderlyEnd : World :=
  { ui := { user := some idB, date := "", entry := "", entries := [entryOfB],
            searchTerm := "", showEntryForm := false, loading := false },
    fetches := [], writes := [], signOuts := 0, signIns := 0,
    log := [Effect.getDocs "A", Effect.signOut, Effect.getDocs "B"] }

/-- A run in which fetches do not overlap: the first query fails, then an
entry is saved and the query that follows the insert is outstanding. -/
def serialRun : List Event :=
  [.authChanged (some idA), .userEffect, .getDocsSettled 0 none, .newEntryClick,
   .dateInput "2024-03-01", .entryInput "draft", .saveClick, .addDocSettled 0 true]

/-- The world at the end of `serialRun`. -/
def serialEnd : World :=
  { ui := { user := some idA, date := "", entry := "", entries := [],
            searchTerm := "", showEntryForm := false, loading := true },
    fetches := ["A"], writes := [], signOuts := 0, signIns := 0,
    log := [Effect.getDocs "A", Effect.consoleError "fetchEntries:",
            Effect.addDoc { uid := "A", date := "2024-03-01", text := "draft" },
            Effect.getDocs "A"] }

/-! ## Lemmas on strings and on the filter -/

theorem eraseIdx_length_append_singleton {α : Type} (l : List α) (a : α) :
    (l ++ [a]).eraseIdx l.length = l := by
  induction l with
  | nil => rfl
  | cons x xs ih => simp [List.eraseIdx, ih]

theorem includes_iff_occurs (s t : String) :
    includes s t = true ↔ t.data <:+: s.data := by
  unfold includes
  rw [List.any_eq_true]
  constructor
  · rintro ⟨u, hu, hp⟩
    rw [List.mem_tails] at hu
    rw [List.isPrefixOf_iff_prefix] at hp
    exact hp.isInfix.trans hu.isInfix
  · intro h
    obtain ⟨u, hp, hs⟩ := List.infix_iff_prefix_suffix.mp h
    exact ⟨u, (List.mem_tails _ _).2 hs, List.isPrefixOf_iff_prefix.2 hp⟩

theorem matchesSearch_iff (toLowerCase : String → String) (term : String) (e : Entry) :
    matchesSearch toLowerCase term e = true ↔ TextContains toLowerCase term e := by
  unfold matchesSearch TextContains
  cases h : e.text with
  | none => simp
  | some t => simp [includes_iff_occurs]

theorem includes_empty (s : String) : includes s "" = true := by
  rw [includes_iff_occurs]
  exact List.nil_infix

/-! ## The derived list -/

/-- C1: for every lowercasing, cache `C` and term `T`, the visible list is a
subsequence of `C` (same relative order); an entry is in it exactly when it is
in `C` and its text, lowercased, contains `T` lowercased; every such entry is
kept as often as it occurs in `C`.  The list is a function of `C` and `T` that
returns a new list, so `C` is what it was.  With the cache texts
"Started project X" and "Went for a walk" and the term "proj" only the first
entry is visible. -/
theorem visibleEntries_subsequence_exact (toLowerCase : String → String)
    (C : List Entry) (T : String) :
    List.Sublist (visibleEntries toLowerCase C T) C ∧
    (∀ e, e ∈ visibleEntries toLowerCase C T ↔ e ∈ C ∧ TextContains toLowerCase T e) ∧
    (∀ e, TextContains toLowerCase T e →
      (visibleEntries toLowerCase C T).count e = C.count e) ∧
    visibleEntries asciiLower [entryProject, entryWalk] "proj" = [entryProject] := by
  refine ⟨List.filter_sublist C, ?_, ?_, by decide⟩
  · intro e
    simp only [visibleEntries, List.mem_filter, matchesSearch_iff]
  · intro e he
    unfold visibleEntries
    rw [List.count_filter]
    exact (matchesSearch_iff toLowerCase T e).2 he

/-- C7, as the code has it: with a lowercasing that maps the empty string to
itself, the visible list for the empty term is the cache without the entries
that have no text, in the same order; it is the whole cache when every entry
has a text. -/
theorem visibleEntries_empty_term (toLowerCase : String → String)
    (hlow : toLowerCase "" = "") (C : List Entry) :
    visibleEntries toLowerCase C "" = C.filter (fun e => e.text.isSome) ∧
    ((∀ e ∈ C, e.text.isSome = true) → visibleEntries toLowerCase C "" = C) := by
  have hfun : matchesSearch toLowerCase "" = fun e => e.text.isSome := by
    funext e
    unfold matchesSearch
    cases e.text with
    | none => rfl
    | some t => simp [hlow, includes_empty]
  constructor
  · simp [visibleEntries, hfun]
  · intro hall
    unfold visibleEntries
    rw [hfun]
    exact List.filter_eq_self.2 hall

/-- C7 at a cache of two entries with a text and one without. -/
theorem visibleEntries_empty_term_witness :
    visibleEntries asciiLower [entryProject, entryNoText, entryWalk] "" =
      [entryProject, entryNoText, entryWalk].filter (fun e => e.text.isSome) ∧
    visibleEntries asciiLower [entryProject, entryWalk] "" = [entryProject, entryWalk] :=
  ⟨(visibleEntries_empty_term asciiLower (by decide) [entryProject, entryNoText, entryWalk]).1,
   (visibleEntries_empty_term asciiLower (by decide) [entryProject, entryWalk]).2 (by decide)⟩

/-- C7 as stated fails: a cache holding one document without a `text` field is
not what is visible under the empty term; nothing is. -/
theorem visibleEntries_empty_term_drops_textless :
    visibleEntries asciiLower [entryNoText] "" = [] ∧
    visibleEntries asciiLower [entryNoText] "" ≠ [entryNoText] ∧
    visibleEntries asciiLower [entryProject, entryNoText, entryWalk] "" =
      [entryProject, entryWalk] := by
  decide

/-! ## The session handler -/

/-- C4: in every world, handling a notification without identity leaves the
session at none and the cache empty, in that one step; handling a notification
with an identity sets the session to that identity.  Both steps can always
happen. -/
theorem onAuthStateChanged_session (w : World) :
    ((onAuthStateChanged none w).ui.user = none ∧
      (onAuthStateChanged none w).ui.entries = [] ∧
      step w (.authChanged none) = some (onAuthStateChanged none w)) ∧
    (∀ u : Identity, (onAuthStateChanged (some u) w).ui.user = some u ∧
      step w (.authChanged (some u)) = some (onAuthStateChanged (some u) w)) := by
  refine ⟨⟨rfl, rfl, rfl⟩, fun u => ⟨rfl, rfl⟩⟩

/-! ## Saving -/

/-- C3: when the date is empty or the text is empty after trimming, `saveEntry`
leaves the React state as it was (Composer, date, text, cache and the rest),
starts no promise, and the only effect it adds to the log is the `alert`: no
`addDoc` and no `getDocs`. -/
theorem saveEntry_rejects_invalid_draft (w : World)
    (h : w.ui.date = "" ∨ trim w.ui.entry = "") :
    (saveEntry w).ui = w.ui ∧
    (saveEntry w).fetches = w.fetches ∧
    (saveEntry w).writes = w.writes ∧
    (saveEntry w).log = w.log ++ [Effect.alert saveAlert] := by
  simp [saveEntry, h]

/-- C3 at a draft whose text is white space only, and at the empty draft of
the initial state. -/
theorem saveEntry_rejects_invalid_draft_witness :
    ((saveEntry blankDraftWorld).ui = blankDraftWorld.ui ∧
      (saveEntry blankDraftWorld).fetches = blankDraftWorld.fetches ∧
      (saveEntry blankDraftWorld).writes = blankDraftWorld.writes ∧
      (saveEntry blankDraftWorld).log =
        blankDraftWorld.log ++ [Effect.alert saveAlert]) ∧
    (saveEntry init).ui = init.ui :=
  ⟨saveEntry_rejects_invalid_draft blankDraftWorld (by decide),
   (saveEntry_rejects_invalid_draft init (by decide)).1⟩

/-- C2: with an identity `u` signed in, a non-empty date and a text that is
non-empty after trimming, `saveEntry` makes exactly one call to the store, the
insert of the record (`u.uid`, the date, the trimmed text), and awaits it.
Whenever that insert succeeds, in whatever world `w1` the component is by
then, the Composer is hidden and date and text are empty afterwards, and the
only further call is the query for `u`. -/
theorem saveEntry_inserts_once_then_closes (w : World) (u : Identity)
    (hu : w.ui.user = some u) (hd : w.ui.date ≠ "") (ht : trim w.ui.entry ≠ "") :
    (saveEntry w).log =
      w.log ++ [Effect.addDoc { uid := u.uid, date := w.ui.date, text := trim w.ui.entry }] ∧
    (saveEntry w).writes = w.writes ++ [u] ∧
    (saveEntry w).ui = w.ui ∧
    (∀ (w1 : World) (k : Nat), w1.writes[k]? = some u →
      (addDocSettled k true w1).ui.showEntryForm = false ∧
      (addDocSettled k true w1).ui.date = "" ∧
      (addDocSettled k true w1).ui.entry = "" ∧
      (addDocSettled k true w1).writes = w1.writes.eraseIdx k ∧
      (addDocSettled k true w1).log = w1.log ++ [Effect.getDocs u.uid]) := by
  refine ⟨?_, ?_, ?_, ?_⟩
  · simp [saveEntry, hu, hd, ht]
  · simp [saveEntry, hu, hd, ht]
  · simp [saveEntry, hu, hd, ht]
  · intro w1 k hk
    simp [addDocSettled, hk, fetchEntries]

/-- C2 at the draft ("2024-03-01", "  draft ") of `A`: the record holds the
trimmed text, and after the insert succeeded the Composer is closed. -/
theorem saveEntry_inserts_once_then_closes_witness :
    (saveEntry readyWorld).log =
      [Effect.getDocs "A", Effect.addDoc { uid := "A", date := "2024-03-01", text := "draft" }] ∧
    (addDocSettled 0 true (saveEntry readyWorld)).ui.showEntryForm = false ∧
    (addDocSettled 0 true (saveEntry readyWorld)).ui.date = "" ∧
    (addDocSettled 0 true (saveEntry readyWorld)).ui.entry = "" ∧
    (addDocSettled 0 true (saveEntry readyWorld)).log =
      [Effect.getDocs "A", Effect.addDoc { uid := "A", date := "2024-03-01", text := "draft" },
       Effect.getDocs "A"] :=
  have h := saveEntry_inserts_once_then_closes readyWorld idA rfl (by decide) (by decide)
  have h2 := h.2.2.2 (saveEntry readyWorld) 0 (by decide)
  ⟨by decide, h2.1, h2.2.1, h2.2.2.1, by decide⟩

/-- C8, as the code has it: in a successful save the insert comes first; when
it has succeeded, one continuation clears the draft, hides the Composer and
only then sends the query for the identity captured at the click, without
awaiting it.  So right after the save the Composer is closed, the cache is
still the one from before, `loading` is true and the query is outstanding; the
cache is replaced when that query later delivers its snapshot. -/
theorem saveEntry_closes_then_refetches (w : World) (u : Identity)
    (hu : w.ui.user = some u) (hd : w.ui.date ≠ "") (ht : trim w.ui.entry ≠ "") :
    (addDocSettled w.writes.length true (saveEntry w)).log =
      w.log ++ [Effect.addDoc { uid := u.uid, date := w.ui.date, text := trim w.ui.entry },
                Effect.getDocs u.uid] ∧
    (addDocSettled w.writes.length true (saveEntry w)).ui.showEntryForm = false ∧
    (addDocSettled w.writes.length true (saveEntry w)).ui.date = "" ∧
    (addDocSettled w.writes.length true (saveEntry w)).ui.entry = "" ∧
    (addDocSettled w.writes.length true (saveEntry w)).ui.entries = w.ui.entries ∧
    (addDocSettled w.writes.length true (saveEntry w)).ui.loading = true ∧
    (addDocSettled w.writes.length true (saveEntry w)).fetches = w.fetches ++ [u.uid] ∧
    (∀ arr : List Entry,
      (getDocsSettled w.fetches.length (some arr)
        (addDocSettled w.writes.length true (saveEntry w))).ui.entries = arr ∧
      (getDocsSettled w.fetches.length (some arr)
        (addDocSettled w.writes.length true (saveEntry w))).fetches = w.fetches) := by
  have hs : saveEntry w =
      { w with writes := w.writes ++ [u],
               log := w.log ++ [Effect.addDoc
                 { uid := u.uid, date := w.ui.date, text := trim w.ui.entry }] } := by
    simp [saveEntry, hu, hd, ht]
  rw [hs]
  simp [addDocSettled, fetchEntries, getDocsSettled, eraseIdx_length_append_singleton]

/-- C8 at the draft ("2024-03-01", "  draft ") of `A`. -/
theorem saveEntry_closes_then_refetches_witness :
    (addDocSettled 0 true (saveEntry readyWorld)).ui.showEntryForm = false ∧
    (addDocSettled 0 true (saveEntry readyWorld)).ui.entries = [entryProject] ∧
    (addDocSettled 0 true (saveEntry readyWorld)).fetches = ["A"] :=
  have h := saveEntry_closes_then_refetches readyWorld idA rfl (by decide) (by decide)
  ⟨h.2.1, h.2.2.2.2.1, h.2.2.2.2.2.2.1⟩

/-- C8 as stated fails: `A` signs in, the first query returns an empty list,
`A` writes a draft and saves it, the insert succeeds.  In the world reached the
Composer has been closed by the save, yet the cache is still the empty list
from before the write and the query that follows the write is outstanding. -/
theorem save_closes_before_refetch_lands :
    (run init [.authChanged (some idA), .userEffect, .getDocsSettled 0 (some []),
               .newEntryClick, .dateInput "2024-03-01", .entryInput "draft",
               .saveClick, .addDocSettled 0 true]).map
        (fun w => (w.ui.showEntryForm, w.ui.entries, w.fetches, w.log)) =
      some (false, [], ["A"],
        [Effect.getDocs "A",
         Effect.addDoc { uid := "A", date := "2024-03-01", text := "draft" },
         Effect.getDocs "A"]) := by
  decide

/-! ## Failing calls -/

/-- C6: in every world, when the query of any outstanding `fetchEntries` fails,
the React state is what it was except that `loading` is false: the cache is
the cache from before; when the insert of any outstanding `saveEntry` fails,
the whole React state is what it was: the Composer as it was (still open),
date, text and cache unchanged.  Neither needs anything else to be in
flight.  The same holds for each call taken as a whole, from its start to the
failure. -/
theorem failed_call_keeps_last_good (w : World) :
    (∀ k : Nat, k < w.fetches.length →
      (getDocsSettled k none w).ui = { w.ui with loading := false } ∧
      (getDocsSettled k none w).ui.entries = w.ui.entries ∧
      (getDocsSettled k none w).ui.loading = false ∧
      step w (.getDocsSettled k none) = some (getDocsSettled k none w)) ∧
    (∀ j : Nat, j < w.writes.length →
      (addDocSettled j false w).ui = w.ui ∧
      step w (.addDocSettled j false) = some (addDocSettled j false w)) ∧
    (∀ u : Identity,
      (getDocsSettled w.fetches.length none (fetchEntries (some u) w)).ui.entries
        = w.ui.entries ∧
      (getDocsSettled w.fetches.length none (fetchEntries (some u) w)).ui.loading = false) ∧
    (addDocSettled w.writes.length false (saveEntry w)).ui = w.ui := by
  refine ⟨?_, ?_, ?_, ?_⟩
  · intro k hk
    refine ⟨?_, ?_, ?_, ?_⟩
    · simp [getDocsSettled, hk]
    · simp [getDocsSettled, hk]
    · simp [getDocsSettled, hk]
    · obtain ⟨uid, huid⟩ : ∃ uid, w.fetches[k]? = some uid :=
        ⟨w.fetches[k], List.getElem?_eq_getElem hk⟩
      simp [step, huid]
  · intro j hj
    refine ⟨?_, ?_⟩
    · obtain ⟨u, hu⟩ : ∃ u, w.writes[j]? = some u :=
        ⟨w.writes[j], List.getElem?_eq_getElem hj⟩
      simp [addDocSettled, hu]
    · simp [step, hj]
  · intro u
    simp [getDocsSettled, fetchEntries]
  · unfold saveEntry
    split
    · simp [addDocSettled]
    · split
      · simp [addDocSettled]
      · simp [addDocSettled]

/-- C6 at the scenario of the specification: the insert fails while the
Composer holds date "2024-03-01" and text "draft" and nothing else is in
flight; and a query fails while no insert is outstanding. -/
theorem failed_call_keeps_last_good_witness :
    ((addDocSettled 0 false savingWorld).ui = savingWorld.ui ∧
      savingWorld.ui.showEntryForm = true ∧
      savingWorld.ui.date = "2024-03-01" ∧
      savingWorld.ui.entry = "draft" ∧
      savingWorld.ui.entries = [entryProject, entryWalk] ∧
      savingWorld.fetches = []) ∧
    ((getDocsSettled 0 none fetchingWorld).ui.entries = [entryProject, entryWalk] ∧
      (getDocsSettled 0 none fetchingWorld).ui.loading = false ∧
      fetchingWorld.writes = []) :=
  ⟨⟨((failed_call_keeps_last_good savingWorld).2.1 0 (by decide)).1, rfl, rfl, rfl, rfl, rfl⟩,
   ((failed_call_keeps_last_good fetchingWorld).1 0 (by decide)).2.1,
   ((failed_call_keeps_last_good fetchingWorld).1 0 (by decide)).2.2.1, rfl⟩

/-! ## Closing the Composer -/

/-- C9, as the code has it: in every world, Cancel hides the Composer and
empties date and text, and so does the continuation of a save whose insert
succeeded; a click on the overlay hides the Composer and changes nothing else,
and so does the floating button when the Composer is open: the draft stays. -/
theorem composer_close_paths (w : World) :
    ((cancelClick w).ui.showEntryForm = false ∧
      (cancelClick w).ui.date = "" ∧ (cancelClick w).ui.entry = "") ∧
    (∀ k : Nat, k < w.writes.length →
      (addDocSettled k true w).ui.showEntryForm = false ∧
      (addDocSettled k true w).ui.date = "" ∧ (addDocSettled k true w).ui.entry = "") ∧
    ((overlayClick w).ui = { w.ui with showEntryForm := false } ∧
      (overlayClick w).ui.showEntryForm = false ∧
      (overlayClick w).ui.date = w.ui.date ∧
      (overlayClick w).ui.entry = w.ui.entry) ∧
    (w.ui.showEntryForm = true →
      (floatingClick w).ui = { w.ui with showEntryForm := false }) := by
  refine ⟨⟨rfl, rfl, rfl⟩, ?_, ⟨rfl, rfl, rfl, rfl⟩, ?_⟩
  · intro k hk
    obtain ⟨u, hu⟩ : ∃ u, w.writes[k]? = some u :=
      ⟨w.writes[k], List.getElem?_eq_getElem hk⟩
    simp [addDocSettled, hu, fetchEntries]
  · intro h
    simp [floatingClick, h]

/-- C9 at the draft ("2024-03-01", "  draft ") with nothing in flight: Cancel
empties it, the overlay and the floating button keep it; and at a draft whose
insert is outstanding: the successful save empties it. -/
theorem composer_close_paths_witness :
    ((cancelClick readyWorld).ui.showEntryForm = false ∧
      (cancelClick readyWorld).ui.date = "" ∧ (cancelClick readyWorld).ui.entry = "") ∧
    (overlayClick readyWorld).ui = { readyWorld.ui with showEntryForm := false } ∧
    (floatingClick readyWorld).ui = { readyWorld.ui with showEntryForm := false } ∧
    ((addDocSettled 0 true savingWorld).ui.showEntryForm = false ∧
      (addDocSettled 0 true savingWorld).ui.date = "" ∧
      (addDocSettled 0 true savingWorld).ui.entry = "") :=
  ⟨(composer_close_paths readyWorld).1,
   (composer_close_paths readyWorld).2.2.1.1,
   (composer_close_paths readyWorld).2.2.2 rfl,
   (composer_close_paths savingWorld).2.1 0 (by decide)⟩

/-- C9 as stated fails: with the Composer open on the draft
("2024-03-01", "draft"), a click on the overlay can happen and hides the
Composer, and date and text are not the empty string afterwards; the same with
nothing in flight. -/
theorem overlay_dismissal_keeps_draft :
    step draftWorld .overlayClick = some (overlayClick draftWorld) ∧
    (overlayClick draftWorld).ui.showEntryForm = false ∧
    (overlayClick draftWorld).ui.date = "2024-03-01" ∧
    (overlayClick draftWorld).ui.entry = "draft" ∧
    (overlayClick draftWorld).ui.date ≠ "" ∧
    (overlayClick draftWorld).ui.entry ≠ "" ∧
    step readyWorld .overlayClick = some (overlayClick readyWorld) ∧
    (overlayClick readyWorld).ui.showEntryForm = false ∧
    (overlayClick readyWorld).ui.date = "2024-03-01" ∧
    (overlayClick readyWorld).ui.entry = "  draft " := by
  decide

/-! ## Lemmas on steps -/

theorem noLeak_iff (w : World) :
    noLeak w = true ↔
      (w.ui.user = none → w.ui.entries = []) ∧
      (∀ u, w.ui.user = some u → ∀ e ∈ w.ui.entries, e.uid = u.uid) := by
  unfold noLeak
  cases h : w.ui.user with
  | none => simp [List.isEmpty_iff]
  | some u => simp

theorem noLeak_congr {w w1 : World} (hu : w1.ui.user = w.ui.user)
    (he : w1.ui.entries = w.ui.entries) : noLeak w1 = noLeak w := by
  unfold noLeak
  rw [hu, he]

theorem fetchEntries_user (u : Option Identity) (w : World) :
    (fetchEntries u w).ui.user = w.ui.user := by
  cases u <;> rfl

theorem fetchEntries_entries (u : Option Identity) (w : World) :
    (fetchEntries u w).ui.entries = w.ui.entries := by
  cases u <;> rfl

theorem addDocSettled_user (k : Nat) (ok : Bool) (w : World) :
    (addDocSettled k ok w).ui.user = w.ui.user := by
  unfold addDocSettled
  split
  · rfl
  · split
    · rw [fetchEntries_user]
    · rfl

theorem addDocSettled_entries (k : Nat) (ok : Bool) (w : World) :
    (addDocSettled k ok w).ui.entries = w.ui.entries := by
  unfold addDocSettled
  split
  · rfl
  · split
    · rw [fetchEntries_entries]
    · rfl

theorem saveEntry_ui (w : World) : (saveEntry w).ui = w.ui := by
  unfold saveEntry
  split
  · rfl
  · split <;> rfl

theorem saveEntry_fetches (w : World) : (saveEntry w).fetches = w.fetches := by
  unfold saveEntry
  split
  · rfl
  · split <;> rfl

theorem step_noLeak {w w1 : World} {ev : Event} (h0 : noLeak w = true)
    (ho : orderly w ev = true) (hs : step w ev = some w1) : noLeak w1 = true := by
  cases ev with
  | authChanged u =>
    simp only [step, Option.some.injEq] at hs
    subst hs
    cases u with
    | none => rfl
    | some u =>
      cases hu : w.ui.user with
      | none =>
        have he : w.ui.entries = [] := ((noLeak_iff w).1 h0).1 hu
        simp [noLeak, onAuthStateChanged, he]
      | some v =>
        have hv : v.uid = u.uid := by simpa [orderly, hu] using ho
        have he := ((noLeak_iff w).1 h0).2 v hu
        rw [noLeak_iff]
        refine ⟨fun h => by simp [onAuthStateChanged] at h, fun u1 h1 e hmem => ?_⟩
        simp only [onAuthStateChanged, Option.some.injEq] at h1
        subst h1
        rw [← hv]
        exact he e hmem
  | userEffect =>
    simp only [step, Option.some.injEq] at hs
    subst hs
    unfold userEffect
    rw [noLeak_congr (fetchEntries_user _ _) (fetchEntries_entries _ _)]
    exact h0
  | getDocsSettled k r =>
    cases hf : w.fetches[k]? with
    | none => simp [step, hf] at hs
    | some uid =>
      have hk : k < w.fetches.length := (List.getElem?_eq_some_iff.1 hf).1
      cases r with
      | none =>
        simp only [step, hf, Option.some.injEq] at hs
        subst hs
        have hu : (getDocsSettled k none w).ui.user = w.ui.user := by
          simp [getDocsSettled, hk]
        have he : (getDocsSettled k none w).ui.entries = w.ui.entries := by
          simp [getDocsSettled, hk]
        rw [noLeak_congr hu he]
        exact h0
      | some arr =>
        cases hu : w.ui.user with
        | none => simp [orderly, hu] at ho
        | some u =>
          have hq : uid = u.uid := by simpa [orderly, hu, hf] using ho
          by_cases ha : answersQuery uid arr = true
          · simp only [step, hf, ha, if_true, Option.some.injEq] at hs
            subst hs
            rw [hq] at ha
            simpa [noLeak, getDocsSettled, hk, hu, answersQuery] using ha
          · simp [step, hf, ha] at hs
  | signInClick =>
    by_cases hc : signedIn w = true
    · simp [step, hc] at hs
    · simp only [step, hc, Bool.false_eq_true, if_false, Option.some.injEq] at hs
      subst hs
      exact h0
  | signInSettled ok =>
    by_cases hc : 0 < w.signIns
    · simp only [step, hc, if_true, Option.some.injEq] at hs
      subst hs
      cases ok <;> simpa [noLeak, signInSettled, hc] using h0
    · simp [step, hc] at hs
  | signOutClick =>
    by_cases hc : signedIn w = true
    · simp only [step, hc, if_true, Option.some.injEq] at hs
      subst hs
      exact h0
    · simp [step, hc] at hs
  | signOutSettled ok =>
    by_cases hc : 0 < w.signOuts
    · simp only [step, hc, if_true, Option.some.injEq] at hs
      subst hs
      cases ok with
      | false => simpa [noLeak, signOutSettled, hc] using h0
      | true =>
        have hn : w.ui.user = none := by simpa [orderly] using ho
        have he : w.ui.entries = [] := ((noLeak_iff w).1 h0).1 hn
        simp [noLeak, signOutSettled, hc, he]
    · simp [step, hc] at hs
  | searchInput v =>
    by_cases hc : signedIn w = true
    · simp only [step, hc, if_true, Option.some.injEq] at hs
      subst hs
      exact h0
    · simp [step, hc] at hs
  | newEntryClick =>
    by_cases hc : signedIn w = true
    · simp only [step, hc, if_true, Option.some.injEq] at hs
      subst hs
      exact h0
    · simp [step, hc] at hs
  | floatingClick =>
    by_cases hc : signedIn w = true
    · simp only [step, hc, if_true, Option.some.injEq] at hs
      subst hs
      exact h0
    · simp [step, hc] at hs
  | overlayClick =>
    by_cases hc : modalShown w = true
    · simp only [step, hc, if_true, Option.some.injEq] at hs
      subst hs
      exact h0
    · simp [step, hc] at hs
  | dateInput v =>
    by_cases hc : modalShown w = true
    · simp only [step, hc, if_true, Option.some.injEq] at hs
      subst hs
      exact h0
    · simp [step, hc] at hs
  | entryInput v =>
    by_cases hc : modalShown w = true
    · simp only [step, hc, if_true, Option.some.injEq] at hs
      subst hs
      exact h0
    · simp [step, hc] at hs
  | saveClick =>
    by_cases hc : modalShown w = true
    · simp only [step, hc, if_true, Option.some.injEq] at hs
      subst hs
      rw [noLeak_congr (congrArg State.user (saveEntry_ui w))
        (congrArg State.entries (saveEntry_ui w))]
      exact h0
    · simp [step, hc] at hs
  | cancelClick =>
    by_cases hc : modalShown w = true
    · simp only [step, hc, if_true, Option.some.injEq] at hs
      subst hs
      exact h0
    · simp [step, hc] at hs
  | addDocSettled k ok =>
    by_cases hc : k < w.writes.length
    · simp only [step, hc, if_true, Option.some.injEq] at hs
      subst hs
      rw [noLeak_congr (addDocSettled_user k ok w) (addDocSettled_entries k ok w)]
      exact h0
    · simp [step, hc] at hs

theorem runGuarded_orderly_noLeak (evs : List Event) :
    ∀ (w w1 : World), noLeak w = true → runGuarded orderly w evs = some w1 →
      noLeak w1 = true := by
  induction evs with
  | nil =>
    intro w w1 h0 hr
    simp only [runGuarded, Option.some.injEq] at hr
    subst hr
    exact h0
  | cons ev evs ih =>
    intro w w1 h0 hr
    by_cases ho : orderly w ev = true
    · cases hs : step w ev with
      | none => simp [runGuarded, ho, hs] at hr
      | some w2 =>
        simp only [runGuarded, ho, if_true, hs, Option.some_bind] at hr
        exact ih w2 w1 (step_noLeak h0 ho hs) hr
    · simp [runGuarded, ho] at hr

/-- What a step does to the outstanding fetches and to `loading`: nothing, or
it sends one query and sets `loading`, or one outstanding query settles and
`loading` is cleared. -/
theorem step_fetches_loading {w w1 : World} {ev : Event} (hs : step w ev = some w1) :
    (w1.fetches = w.fetches ∧ w1.ui.loading = w.ui.loading) ∨
    (∃ uid, w1.fetches = w.fetches ++ [uid] ∧ w1.ui.loading = true) ∨
    (∃ k, k < w.fetches.length ∧ w1.fetches = w.fetches.eraseIdx k ∧
      w1.ui.loading = false) := by
  cases ev with
  | authChanged u =>
    simp only [step, Option.some.injEq] at hs
    subst hs
    cases u <;> exact Or.inl ⟨rfl, rfl⟩
  | userEffect =>
    simp only [step, Option.some.injEq] at hs
    subst hs
    unfold userEffect
    cases w.ui.user with
    | none => exact Or.inl ⟨rfl, rfl⟩
    | some u => exact Or.inr (Or.inl ⟨u.uid, rfl, rfl⟩)
  | getDocsSettled k r =>
    cases hf : w.fetches[k]? with
    | none => simp [step, hf] at hs
    | some uid =>
      have hk : k < w.fetches.length := (List.getElem?_eq_some_iff.1 hf).1
      refine Or.inr (Or.inr ⟨k, hk, ?_⟩)
      cases r with
      | none =>
        simp only [step, hf, Option.some.injEq] at hs
        subst hs
        simp [getDocsSettled, hk]
      | some arr =>
        by_cases ha : answersQuery uid arr = true
        · simp only [step, hf, ha, if_true, Option.some.injEq] at hs
          subst hs
          simp [getDocsSettled, hk]
        · simp [step, hf, ha] at hs
  | signInClick =>
    by_cases hc : signedIn w = true
    · simp [step, hc] at hs
    · simp only [step, hc, Bool.false_eq_true, if_false, Option.some.injEq] at hs
      subst hs
      exact Or.inl ⟨rfl, rfl⟩
  | signInSettled ok =>
    by_cases hc : 0 < w.signIns
    · simp only [step, hc, if_true, Option.some.injEq] at hs
      subst hs
      cases ok <;> exact Or.inl (by simp [signInSettled, hc])
    · simp [step, hc] at hs
  | signOutClick =>
    by_cases hc : signedIn w = true
    · simp only [step, hc, if_true, Option.some.injEq] at hs
      subst hs
      exact Or.inl ⟨rfl, rfl⟩
    · simp [step, hc] at hs
  | signOutSettled ok =>
    by_cases hc : 0 < w.signOuts
    · simp only [step, hc, if_true, Option.some.injEq] at hs
      subst hs
      cases ok <;> exact Or.inl (by simp [signOutSettled, hc])
    · simp [step, hc] at hs
  | searchInput v =>
    by_cases hc : signedIn w = true
    · simp only [step, hc, if_true, Option.some.injEq] at hs
      subst hs
      exact Or.inl ⟨rfl, rfl⟩
    · simp [step, hc] at hs
  | newEntryClick =>
    by_cases hc : signedIn w = true
    · simp only [step, hc, if_true, Option.some.injEq] at hs
      subst hs
      exact Or.inl ⟨rfl, rfl⟩
    · simp [step, hc] at hs
  | floatingClick =>
    by_cases hc : signedIn w = true
    · simp only [step, hc, if_true, Option.some.injEq] at hs
      subst hs
      exact Or.inl ⟨rfl, rfl⟩
    · simp [step, hc] at hs
  | overlayClick =>
    by_cases hc : modalShown w = true
    · simp only [step, hc, if_true, Option.some.injEq] at hs
      subst hs
      exact Or.inl ⟨rfl, rfl⟩
    · simp [step, hc] at hs
  | dateInput v =>
    by_cases hc : modalShown w = true
    · simp only [step, hc, if_true, Option.some.injEq] at hs
      subst hs
      exact Or.inl ⟨rfl, rfl⟩
    · simp [step, hc] at hs
  | entryInput v =>
    by_cases hc : modalShown w = true
    · simp only [step, hc, if_true, Option.some.injEq] at hs
      subst hs
      exact Or.inl ⟨rfl, rfl⟩
    · simp [step, hc] at hs
  | saveClick =>
    by_cases hc : modalShown w = true
    · simp only [step, hc, if_true, Option.some.injEq] at hs
      subst hs
      exact Or.inl ⟨saveEntry_fetches w, congrArg State.loading (saveEntry_ui w)⟩
    · simp [step, hc] at hs
  | cancelClick =>
    by_cases hc : modalShown w = true
    · simp only [step, hc, if_true, Option.some.injEq] at hs
      subst hs
      exact Or.inl ⟨rfl, rfl⟩
    · simp [step, hc] at hs
  | addDocSettled k ok =>
    by_cases hc : k < w.writes.length
    · simp only [step, hc, if_true, Option.some.injEq] at hs
      subst hs
      obtain ⟨u, hu⟩ : ∃ u, w.writes[k]? = some u :=
        ⟨w.writes[k], List.getElem?_eq_getElem hc⟩
      cases ok with
      | false => exact Or.inl (by simp [addDocSettled, hu])
      | true => exact Or.inr (Or.inl ⟨u.uid, by simp [addDocSettled, hu, fetchEntries]⟩)
    · simp [step, hc] at hs

theorem step_quiet {w w1 : World} {ev : Event}
    (h0 : w.fetches = [] → w.ui.loading = false) (hs : step w ev = some w1) :
    w1.fetches = [] → w1.ui.loading = false := by
  intro h1
  rcases step_fetches_loading hs with ⟨hf, hl⟩ | ⟨uid, hf, _⟩ | ⟨k, _, _, hl⟩
  · rw [hl]
    exact h0 (hf ▸ h1)
  · rw [hf] at h1
    simp at h1
  · exact hl

theorem run_quiet (evs : List Event) :
    ∀ (w w1 : World), (w.fetches = [] → w.ui.loading = false) → run w evs = some w1 →
      w1.fetches = [] → w1.ui.loading = false := by
  induction evs with
  | nil =>
    intro w w1 h0 hr
    simp only [run, Option.some.injEq] at hr
    subst hr
    exact h0
  | cons ev evs ih =>
    intro w w1 h0 hr
    cases hs : step w ev with
    | none => simp [run, hs] at hr
    | some w2 =>
      simp only [run, hs, Option.some_bind] at hr
      exact ih w2 w1 (step_quiet h0 hs) hr

theorem step_serial {w w1 : World} {ev : Event}
    (hlen : w.fetches.length ≤ 1) (h0 : w.ui.loading = true ↔ w.fetches ≠ [])
    (hg : serial w ev = true) (hs : step w ev = some w1) :
    w1.fetches.length ≤ 1 ∧ (w1.ui.loading = true ↔ w1.fetches ≠ []) := by
  have hlen1 : w1.fetches.length ≤ 1 := by simpa [serial, hs] using hg
  refine ⟨hlen1, ?_⟩
  rcases step_fetches_loading hs with ⟨hf, hl⟩ | ⟨uid, hf, hl⟩ | ⟨k, hk, hf, hl⟩
  · rw [hl, hf]
    exact h0
  · rw [hl, hf]
    simp
  · have hz : w1.fetches.length = 0 := by
      rw [hf, List.length_eraseIdx, if_pos hk]
      omega
    have hnil : w1.fetches = [] := List.length_eq_zero.1 hz
    rw [hl, hnil]
    simp

theorem runGuarded_serial (evs : List Event) :
    ∀ (w w1 : World), w.fetches.length ≤ 1 → (w.ui.loading = true ↔ w.fetches ≠ []) →
      runGuarded serial w evs = some w1 →
      (w1.ui.loading = true ↔ w1.fetches ≠ []) := by
  induction evs with
  | nil =>
    intro w w1 _ h0 hr
    simp only [runGuarded, Option.some.injEq] at hr
    subst hr
    exact h0
  | cons ev evs ih =>
    intro w w1 hlen h0 hr
    by_cases hg : serial w ev = true
    · cases hs : step w ev with
      | none => simp [runGuarded, hg, hs] at hr
      | some w2 =>
        simp only [runGuarded, hg, if_true, hs, Option.some_bind] at hr
        have h2 := step_serial hlen h0 hg hs
        exact ih w2 w1 h2.1 h2.2 hr
    · simp [runGuarded, hg] at hr

/-! ## Sessions and the cache -/

/-- C5, as the code has it: the continuation of `fetchEntries` installs the
snapshot whatever the session is by then; there is no check against the
session the query was sent for.  What holds is this: start from a world
without foreign entries in the cache and take any run in which every snapshot
arrives while the identity it was asked for is still signed in, an identity
is announced only when nobody or that same identity is signed in, and the
continuation of `signOutUser` comes after the no-identity notification.  Then
at the end the cache is empty if the session is none and holds only entries
owned by the signed-in identity otherwise; for `A → none → B`, only entries
of `B`. -/
theorem noLeak_on_orderly_runs (w : World) (evs : List Event) (w1 : World)
    (h0 : noLeak w = true) (hr : runGuarded orderly w evs = some w1) :
    ((w1.ui.user = none → w1.ui.entries = []) ∧
      (∀ u, w1.ui.user = some u → ∀ e ∈ w1.ui.entries, e.uid = u.uid)) ∧
    (∀ (k : Nat) (arr : List Entry), k < w1.fetches.length →
      (getDocsSettled k (some arr) w1).ui.entries = arr ∧
      (getDocsSettled k (some arr) w1).ui.user = w1.ui.user) := by
  refine ⟨(noLeak_iff w1).1 (runGuarded_orderly_noLeak evs w w1 h0 hr), ?_⟩
  intro k arr hk
  simp [getDocsSettled, hk]

/-- C5 on the run `A → none → B` of `orderlyRun`: at its end `B` is signed in
and the cache holds the entry of `B` only.  And in `draftWorld`, where `A` is
signed in, a snapshot holding an entry of `B` would be installed as it is. -/
theorem noLeak_on_orderly_runs_witness :
    runGuarded orderly init orderlyRun = some orderlyEnd ∧
    ((orderlyEnd.ui.user = none → orderlyEnd.ui.entries = []) ∧
      (∀ u, orderlyEnd.ui.user = some u → ∀ e ∈ orderlyEnd.ui.entries, e.uid = u.uid)) ∧
    (getDocsSettled 0 (some [entryOfB]) draftWorld).ui.entries = [entryOfB] ∧
    (getDocsSettled 0 (some [entryOfB]) draftWorld).ui.user = some idA :=
  ⟨by decide,
   (noLeak_on_orderly_runs init orderlyRun orderlyEnd (by decide) (by decide)).1,
   (noLeak_on_orderly_runs draftWorld [] draftWorld (by decide) rfl).2 0 [entryOfB]
     (by decide)⟩

/-- C5 as stated fails: `A` signs in and the query for `A` is sent, the
provider announces that nobody is signed in (the cache is cleared), then the
snapshot for `A` arrives.  It is installed: the session is none and the cache
holds an entry of `A`.  When `B` signs in next, the session is `B` and the
cache still holds the entry of `A`. -/
theorem late_snapshot_is_installed :
    (run init [.authChanged (some idA), .userEffect, .authChanged none,
               .getDocsSettled 0 (some [entryProject])]).map
        (fun w => (w.ui.user, w.ui.entries)) = some (none, [entryProject]) ∧
    (run init [.authChanged (some idA), .userEffect, .authChanged none,
               .getDocsSettled 0 (some [entryProject]), .authChanged (some idB)]).map
        (fun w => (w.ui.user, w.ui.entries)) = some (some idB, [entryProject]) ∧
    entryProject.uid ≠ idB.uid := by
  decide

/-! ## The loading flag -/

/-- C10, as the code has it: `loading` is one flag, set when a query is sent
and cleared when any query settles.  From a world with no fetch outstanding
and `loading` false: after every run, if no fetch is outstanding then
`loading` is false (it is never left true); after every run in which at most
one fetch is outstanding at any time, `loading` is true exactly when a fetch
is outstanding.  In any world, sending a query sets the flag and a settling
query, snapshot or failure, clears it. -/
theorem loading_flag_without_overlap (w : World) (evs : List Event) (w1 : World)
    (hq : w.fetches = []) (hl : w.ui.loading = false) :
    (run w evs = some w1 → w1.fetches = [] → w1.ui.loading = false) ∧
    (runGuarded serial w evs = some w1 → (w1.ui.loading = true ↔ w1.fetches ≠ [])) ∧
    (∀ u : Identity, (fetchEntries (some u) w1).ui.loading = true) ∧
    (∀ (k : Nat) (r : Option (List Entry)), k < w1.fetches.length →
      (getDocsSettled k r w1).ui.loading = false) := by
  refine ⟨?_, ?_, fun _ => rfl, ?_⟩
  · intro hr
    exact run_quiet evs w w1 (fun _ => hl) hr
  · intro hr
    refine runGuarded_serial evs w w1 (by simp [hq]) ?_ hr
    simp [hq, hl]
  · intro k r hk
    cases r <;> simp [getDocsSettled, hk]

/-- C10 on the run `serialRun` from the initial state: at its end one fetch is
outstanding and `loading` is true. -/
theorem loading_flag_without_overlap_witness :
    runGuarded serial init serialRun = some serialEnd ∧
    (serialEnd.ui.loading = true ↔ serialEnd.fetches ≠ []) ∧
    (serialEnd.fetches = [] → serialEnd.ui.loading = false) :=
  have h := loading_flag_without_overlap init serialRun serialEnd rfl rfl
  ⟨by decide, h.2.1 (by decide), h.1 (by decide)⟩

/-- C10 as stated fails: `A` signs in and the first query is sent; before it
settles `A` saves an entry and the insert succeeds, which sends a second
query; then the first query delivers its snapshot.  One fetch is still
outstanding and `loading` is false. -/
theorem loading_cleared_while_fetch_outstanding :
    (run init [.authChanged (some idA), .userEffect, .newEntryClick,
               .dateInput "2024-03-01", .entryInput "draft", .saveClick,
               .addDocSettled 0 true]).map
        (fun w => (w.fetches, w.ui.loading)) = some (["A", "A"], true) ∧
    (run init [.authChanged (some idA), .userEffect, .newEntryClick,
               .dateInput "2024-03-01", .entryInput "draft", .saveClick,
               .addDocSettled 0 true, .getDocsSettled 0 (some [])]).map
        (fun w => (w.fetches, w.ui.loading)) = some (["A"], false) := by
  decide

end DayLog
